import Mathlib

/-!
A shallow embedding of the unpoly_rs server-side protocol model.

The embedding translates the request/response negotiation object `Unpoly`
from src/src/lib.rs together with the request-construction logic of
src/src/axum.rs. JSON values are modelled by an inductive tree with integer
numbers (no claim involves non-integral numbers); the fallible generic
serde encoding step of a mutator argument is modelled by an `Option Json`
parameter, where `none` stands for a value whose JSON encoding fails.
Rust `Result` values and panics are modelled by the `Outcome` type.
The `HashSet<String>` vary field is modelled by a duplicate-free list;
`get_headers` is additionally parametrised by the iteration order of that
set so that order-independence can be stated.
-/

/-- JSON value tree (serde_json `Value`), with numbers restricted to
integers, which covers every value appearing in this development. -/
inductive Json where
  | null
  | bool (b : Bool)
  | num (n : Int)
  | str (s : String)
  | arr (elems : List Json)
  | obj (fields : List (String × Json))

/-- serde_json `Value::is_object`. -/
def Json.isObject : Json → Bool
  | .obj _ => true
  | _ => false

/-- serde_json `Map::insert` on an object: replace the value in place when
the key is already present, otherwise append the new entry last (ordered
object keys with synthetic keys appended, as in the spec's JSON model).
On a non-object value the insertion is a no-op; the code only reaches it
after an `is_object` check. -/
def insertKey : List (String × Json) → String → Json → List (String × Json)
  | [], k, v => [(k, v)]
  | (k', v') :: rest, k, v =>
    if k' = k then (k, v) :: rest else (k', v') :: insertKey rest k v

/-- Insert a key into a JSON object value (see `insertKey`). -/
def Json.objInsert (j : Json) (k : String) (v : Json) : Json :=
  match j with
  | .obj fields => .obj (insertKey fields k v)
  | other => other

def hexDigit (n : Nat) : Char :=
  if n < 10 then Char.ofNat (48 + n) else Char.ofNat (87 + n)

/-- serde_json string escaping: quote, backslash, the short control escapes,
and `\u00XX` for the remaining control characters. -/
def escapeChar (c : Char) : String :=
  if c = '"' then "\\\""
  else if c = '\\' then "\\\\"
  else if c = '\n' then "\\n"
  else if c = '\r' then "\\r"
  else if c = '\t' then "\\t"
  else if c.toNat = 8 then "\\b"
  else if c.toNat = 12 then "\\f"
  else if c.toNat < 32 then "\\u00" ++ String.mk [hexDigit (c.toNat / 16), hexDigit (c.toNat % 16)]
  else String.singleton c

def escapeString (s : String) : String :=
  s.data.foldl (fun acc c => acc ++ escapeChar c) ""

def commaSep : List String → String
  | [] => ""
  | [s] => s
  | s :: rest => s ++ "," ++ commaSep rest

/-- serde_json `to_string` on a `Value` (compact form, no spaces). -/
def Json.encode : Json → String
  | .null => "null"
  | .bool true => "true"
  | .bool false => "false"
  | .num n => toString n
  | .str s => "\"" ++ escapeString s ++ "\""
  | .arr elems => "[" ++ commaSep (elems.attach.map (fun x => Json.encode x.1)) ++ "]"
  | .obj fields =>
    "\x7b" ++
      commaSep (fields.attach.map (fun x => "\"" ++ escapeString x.1.1 ++ "\":" ++ Json.encode x.1.2)) ++
    "\x7d"
decreasing_by
  · have h := List.sizeOf_lt_of_mem x.2
    simp at h ⊢
    omega
  · have h := List.sizeOf_lt_of_mem x.2
    obtain ⟨⟨k, v⟩, hx⟩ := x
    simp at h ⊢
    omega

/-- Modelled from the spec: the repository declares `mod headers;` in
src/src/lib.rs but src/headers.rs is not among the sources. The canonical
wire names below follow the spec's wire-name table (`X-Up-*` and
`X-Up-Fail-*` convention, and the standard `Vary` response header) and the
literal header names asserted by the integration tests in src/src/axum.rs. -/
def headers.TITLE : String := "X-Up-Title"

def headers.LOCATION : String := "X-Up-Location"

def headers.ACCEPT_LAYER : String := "X-Up-Accept-Layer"

def headers.DISMISS_LAYER : String := "X-Up-Dismiss-Layer"

def headers.CONTEXT : String := "X-Up-Context"

def headers.FAIL_CONTEXT : String := "X-Up-Fail-Context"

def headers.TARGET : String := "X-Up-Target"

def headers.FAIL_TARGET : String := "X-Up-Fail-Target"

def headers.MODE : String := "X-Up-Mode"

def headers.FAIL_MODE : String := "X-Up-Fail-Mode"

def headers.VALIDATE : String := "X-Up-Validate"

def headers.VERSION : String := "X-Up-Version"

def headers.METHOD : String := "X-Up-Method"

def headers.EVICT_CACHE : String := "X-Up-Evict-Cache"

def headers.EXPIRE_CACHE : String := "X-Up-Expire-Cache"

def headers.EVENTS : String := "X-Up-Events"

def headers.VARY : String := "Vary"

/-- The mode of a layer (`LayerMode` in src/src/lib.rs); `ROOT` is the
serde default. -/
inductive LayerMode where
  | ROOT
  | MODAL
  | DRAWER
  | POPUP
  | COVER
  deriving DecidableEq

/-- Method to match a layer relative to the current layer
(`MatchingLayer` in src/src/lib.rs). -/
inductive MatchingLayer where
  | CURRENT
  | PARENT
  | CLOSEST
  | OVERLAY
  | ANCESTOR
  | CHILD
  | DESCENDANT
  | SUBTREE
  | INDEX (index : Nat)
  deriving DecidableEq

/-- The errors of src/src/lib.rs (`Error`): a serde encoding failure, or an
event payload that does not encode to a JSON object. -/
inductive Error where
  | invalidJson
  | eventIsNotSerializableAsObject
  deriving DecidableEq

/-- Result of running a Rust operation: a value, a returned `Err`, or a
panic (an `unwrap()` on a failed encoding aborts the program). -/
inductive Outcome (α : Type) where
  | ok (a : α) : Outcome α
  | err (e : Error) : Outcome α
  | panicked : Outcome α

/-- The negotiation model (`struct Unpoly` in src/src/lib.rs). The
`HashSet<String>` vary field is modelled as a duplicate-free list. -/
structure Unpoly where
  success : Option Bool
  request_version : Option String
  request_context : Option Json
  request_fail_context : Option Json
  request_fail_mode : LayerMode
  request_mode : LayerMode
  request_target : Option String
  request_fail_target : Option String
  request_validate : List String
  response_context : Option Json
  response_accept_layer : Option Json
  response_dismiss_layer : Option Json
  response_events : List Json
  response_evict_cache : Option String
  response_expire_cache : Option String
  response_location : Option String
  response_method : Option String
  response_target : Option String
  response_title : Option String
  response_vary : List String

/-- `Default::default()` for `Unpoly`. -/
def Unpoly.init : Unpoly :=
  { success := none
    request_version := none
    request_context := none
    request_fail_context := none
    request_fail_mode := LayerMode.ROOT
    request_mode := LayerMode.ROOT
    request_target := none
    request_fail_target := none
    request_validate := []
    response_context := none
    response_accept_layer := none
    response_dismiss_layer := none
    response_events := []
    response_evict_cache := none
    response_expire_cache := none
    response_location := none
    response_method := none
    response_target := none
    response_title := none
    response_vary := [] }

/-- `HashSet::insert`: add a name to the vary set (duplicate-free list). -/
def varyInsert (l : List String) (s : String) : List String :=
  if s ∈ l then l else l ++ [s]

/-- `Unpoly::is_up`: true iff the version header is present; records the
version header name in vary when it is. -/
def Unpoly.is_up (u : Unpoly) : Bool × Unpoly :=
  if u.request_version.isSome then
    (true, { u with response_vary := varyInsert u.response_vary "X-Up-Version" })
  else
    (false, u)

/-- `Unpoly::success`: read the tri-state. -/
def Unpoly.getSuccess (u : Unpoly) : Option Bool × Unpoly :=
  (u.success, u)

/-- `Unpoly::set_success`. -/
def Unpoly.set_success (u : Unpoly) (b : Bool) : Unpoly :=
  if b then
    { u with
      success := some true
      response_vary := varyInsert u.response_vary "X-Up-Target"
      response_target := u.request_target }
  else
    { u with
      success := some false
      response_vary := varyInsert u.response_vary "X-Up-Fail-Target"
      response_target := u.request_fail_target }

/-- `Unpoly::mode`. -/
def Unpoly.mode (u : Unpoly) : LayerMode × Unpoly :=
  if u.success = some false then
    (u.request_fail_mode, { u with response_vary := varyInsert u.response_vary "X-Up-Fail-Mode" })
  else
    (u.request_mode, { u with response_vary := varyInsert u.response_vary "X-Up-Mode" })

/-- `Unpoly::accept_layer`; the argument is the result of the serde
encoding step (`none` when the value cannot be JSON-encoded, in which case
the `?` operator surfaces the error before any mutation). -/
def Unpoly.accept_layer (u : Unpoly) (enc : Option Json) : Outcome Unpoly :=
  match enc with
  | none => .err .invalidJson
  | some v => .ok { u with response_accept_layer := some v, response_dismiss_layer := none }

/-- `Unpoly::accept_layer_without_value`: calls `accept_layer` with the
Rust string literal null, whose serde encoding is the JSON string value
`Json.str "null"` (always succeeds). -/
def Unpoly.accept_layer_without_value (u : Unpoly) : Outcome Unpoly :=
  u.accept_layer (some (Json.str "null"))

/-- `Unpoly::dismiss_layer`: the code calls
`serde_json::to_value(value).unwrap()`, so a failed encoding panics
instead of returning the declared `Result` error. -/
def Unpoly.dismiss_layer (u : Unpoly) (enc : Option Json) : Outcome Unpoly :=
  match enc with
  | none => .panicked
  | some v => .ok { u with response_dismiss_layer := some v, response_accept_layer := none }

/-- `Unpoly::dismiss_layer_without_value`: passes the Rust string literal
null, encoded as the JSON string value. -/
def Unpoly.dismiss_layer_without_value (u : Unpoly) : Outcome Unpoly :=
  u.dismiss_layer (some (Json.str "null"))

/-- `Unpoly::context`. -/
def Unpoly.context (u : Unpoly) : Option Json × Unpoly :=
  if u.response_context.isSome then
    (u.response_context, u)
  else if u.success = some false then
    if u.request_fail_context.isSome then
      let p := u.is_up
      if p.1 then
        (p.2.request_fail_context,
          { p.2 with response_vary := varyInsert p.2.response_vary "X-Up-Fail-Context" })
      else
        (p.2.request_fail_context, p.2)
    else
      (u.request_fail_context, u)
  else
    if u.request_context.isSome then
      let p := u.is_up
      if p.1 then
        (p.2.request_context,
          { p.2 with response_vary := varyInsert p.2.response_vary "X-Up-Context" })
      else
        (p.2.request_context, p.2)
    else
      (u.request_context, u)

/-- `Unpoly::set_context`: the code calls
`serde_json::to_value(layer).unwrap()` and returns no `Result`, so a
failed encoding panics. -/
def Unpoly.set_context (u : Unpoly) (enc : Option Json) : Outcome Unpoly :=
  match enc with
  | none => .panicked
  | some v => .ok { u with response_context := some v }

/-- `Unpoly::target`. -/
def Unpoly.target (u : Unpoly) : Option String × Unpoly :=
  if u.response_target.isSome then
    (u.response_target, u)
  else if u.success = some false then
    (u.request_fail_target, { u with response_vary := varyInsert u.response_vary "X-Up-Fail-Target" })
  else
    (u.request_target, { u with response_vary := varyInsert u.response_vary "X-Up-Target" })

/-- `Unpoly::set_target`. -/
def Unpoly.set_target (u : Unpoly) (t : String) : Unpoly :=
  { u with response_target := some t }

/-- `Unpoly::validate`. -/
def Unpoly.validate (u : Unpoly) : List String × Unpoly :=
  if u.request_validate.isEmpty then
    (u.request_validate, u)
  else
    let p := u.is_up
    if p.1 then
      (p.2.request_validate, { p.2 with response_vary := varyInsert p.2.response_vary "X-Up-Validate" })
    else
      (p.2.request_validate, p.2)

/-- `Unpoly::title`. -/
def Unpoly.title (u : Unpoly) : Option String :=
  u.response_title

/-- `Unpoly::set_title`. -/
def Unpoly.set_title (u : Unpoly) (t : String) : Unpoly :=
  { u with response_title := some t }

/-- `Unpoly::location`. -/
def Unpoly.location (u : Unpoly) : Option String :=
  u.response_location

/-- `Unpoly::set_location`. -/
def Unpoly.set_location (u : Unpoly) (l : String) : Unpoly :=
  { u with response_location := some l }

/-- `Unpoly::method`. -/
def Unpoly.method (u : Unpoly) : Option String :=
  u.response_method

/-- `Unpoly::set_method`. -/
def Unpoly.set_method (u : Unpoly) (m : String) : Unpoly :=
  { u with response_method := some m }

/-- `Unpoly::emit_event`: encode the payload (argument `enc` is the
encoding result), require a JSON object, insert the type key, append. -/
def Unpoly.emit_event (u : Unpoly) (type_ : String) (enc : Option Json) : Outcome Unpoly :=
  match enc with
  | none => .err .invalidJson
  | some v =>
    if v.isObject then
      .ok { u with response_events := u.response_events ++ [v.objInsert "type" (Json.str type_)] }
    else
      .err .eventIsNotSerializableAsObject

/-- The JSON encoding of a `MatchingLayer` used by `emit_event_layer`:
`INDEX(n)` as a bare number, any other variant as its lowercase name. -/
def layerJson : MatchingLayer → Json
  | .INDEX n => .num n
  | .CURRENT => .str "current"
  | .PARENT => .str "parent"
  | .CLOSEST => .str "closest"
  | .OVERLAY => .str "overlay"
  | .ANCESTOR => .str "ancestor"
  | .CHILD => .str "child"
  | .DESCENDANT => .str "descendant"
  | .SUBTREE => .str "subtree"

/-- `Unpoly::emit_event_layer`: as `emit_event` but first inserts the
layer key; the inner `emit_event` call re-encodes the already-built
`Value`, which always succeeds and is still an object. -/
def Unpoly.emit_event_layer (u : Unpoly) (type_ : String) (enc : Option Json)
    (matching_layer : MatchingLayer) : Outcome Unpoly :=
  match enc with
  | none => .err .invalidJson
  | some v =>
    if v.isObject then
      u.emit_event type_ (some (v.objInsert "layer" (layerJson matching_layer)))
    else
      .err .eventIsNotSerializableAsObject

/-- `Unpoly::set_evict_cache`. -/
def Unpoly.set_evict_cache (u : Unpoly) (cache : String) : Unpoly :=
  { u with response_evict_cache := some cache }

/-- `Unpoly::set_expire_cache`. -/
def Unpoly.set_expire_cache (u : Unpoly) (cache : String) : Unpoly :=
  { u with response_expire_cache := some cache }

/-- Byte-lexicographic comparison of strings (the order used by Rust's
`Vec::sort` on strings); on the ASCII header names handled here the
codepoint order of Lean chars coincides with Rust's byte order. -/
def lexLe : List Char → List Char → Bool
  | [], _ => true
  | _ :: _, [] => false
  | a :: as, b :: bs =>
    if a < b then true
    else if b < a then false
    else lexLe as bs

def strLe (s t : String) : Bool :=
  lexLe s.data t.data

/-- Rendering of the vary set from a given iteration order of its
elements: sort, then comma-join with the fold of `get_headers`. -/
def renderVary (names : List String) : String :=
  (List.insertionSort (fun s t => strLe s t = true) names).foldl
    (fun a b => (if a ≠ "" then a ++ "," else a) ++ b) ""

/-- A present optional response field contributes one header, an absent
one contributes none. -/
def optHeader (name : String) : Option String → List (String × String)
  | none => []
  | some v => [(name, v)]

/-- The header map rendered by `Unpoly::get_headers`, parametrised by the
iteration order `it` of the vary `HashSet` (any permutation of the stored
names); the outgoing `HeaderMap` is modelled as the association list in
insertion order. The `serde_json::to_string` calls on a `Value` cannot
fail, so the `Result` wrapper of the original is dropped. This function
gives the rendered content only; the `HeaderValue` conversions of the
original, which panic on values with control characters, are modelled on
top of it by `Unpoly.get_headers_outcome`. -/
def Unpoly.get_headers_iter (u : Unpoly) (it : List String) : List (String × String) :=
  optHeader headers.TITLE u.response_title ++
  optHeader headers.LOCATION u.response_location ++
  optHeader headers.ACCEPT_LAYER (u.response_accept_layer.map Json.encode) ++
  optHeader headers.DISMISS_LAYER (u.response_dismiss_layer.map Json.encode) ++
  optHeader headers.CONTEXT (u.response_context.map Json.encode) ++
  optHeader headers.TARGET u.response_target ++
  optHeader headers.METHOD u.response_method ++
  optHeader headers.EVICT_CACHE u.response_evict_cache ++
  optHeader headers.EXPIRE_CACHE u.response_expire_cache ++
  (if u.response_events.isEmpty then [] else
    [(headers.EVENTS, Json.encode (Json.arr u.response_events))]) ++
  (if it.isEmpty then [] else [(headers.VARY, renderVary it)])

/-- `Unpoly::get_headers` at the stored vary list itself. -/
def Unpoly.get_headers (u : Unpoly) : List (String × String) :=
  u.get_headers_iter u.response_vary

/-- Look a header up by name in the rendered map. -/
def findHeader (name : String) : List (String × String) → Option String
  | [] => none
  | (n, v) :: rest => if n = name then some v else findHeader name rest

/-- Validity of one character of a header value, following the byte check
of the http crate's `HeaderValue::from_str`: tab, or a byte that is at
least 32 and not 127 (DEL). Characters beyond ASCII encode to UTF-8 bytes
of at least 128, all of which that check accepts, so on the character
level the condition is exactly this one. -/
def validHeaderChar (c : Char) : Bool :=
  decide (c.toNat = 9) || (decide (32 ≤ c.toNat) && decide (c.toNat ≠ 127))

/-- Validity of a whole header value string. -/
def validHeaderValue (s : String) : Bool :=
  s.data.all validHeaderChar

/-- `Unpoly::get_headers` including the `HeaderValue` conversions: every
rendered value goes through `.parse().unwrap()`, which panics as soon as
one value contains a character rejected by `HeaderValue::from_str`;
otherwise the rendered map is returned. A panic carries no data, so
checking all rendered values at once is outcome-equivalent to the
original's field-by-field construction. The header names are fixed valid
constants and need no check. -/
def Unpoly.get_headers_outcome (u : Unpoly) (it : List String) : Outcome (List (String × String)) :=
  if (u.get_headers_iter it).all (fun p => validHeaderValue p.2) then
    .ok (u.get_headers_iter it)
  else
    .panicked

/-- The raw inbound headers consumed by the axum extractor
(src/src/axum.rs). The context headers carry the result of the serde JSON
decode step (`serde_json::from_str(v).unwrap_or_default()`); an
unparseable raw string yields `some Json.null` there, an absent header
yields `none`. -/
structure RequestHeaders where
  version : Option String
  context : Option Json
  fail_context : Option Json
  mode : Option String
  fail_mode : Option String
  target : Option String
  fail_target : Option String
  validate : Option String

/-- Mode parsing of the axum extractor: the raw value is wrapped in quotes
and JSON-decoded into `LayerMode` (serde lowercase names), any failure
defaulting to `ROOT`; behaviourally a case table over the five lowercase
names with default `ROOT`. -/
def parseLayerMode : Option String → LayerMode
  | none => LayerMode.ROOT
  | some s =>
    if s = "root" then LayerMode.ROOT
    else if s = "modal" then LayerMode.MODAL
    else if s = "drawer" then LayerMode.DRAWER
    else if s = "popup" then LayerMode.POPUP
    else if s = "cover" then LayerMode.COVER
    else LayerMode.ROOT

/-- Rust `str::split_whitespace`: the maximal non-empty runs of
non-whitespace characters, in order. -/
def splitWhitespaceAux : List Char → List Char → List String
  | [], acc => if acc.isEmpty then [] else [String.mk acc.reverse]
  | c :: cs, acc =>
    if c.isWhitespace then
      (if acc.isEmpty then [] else [String.mk acc.reverse]) ++ splitWhitespaceAux cs []
    else
      splitWhitespaceAux cs (c :: acc)

def splitWhitespace (s : String) : List String :=
  splitWhitespaceAux s.data []

/-- Validate parsing of the axum extractor: split on whitespace into the
non-empty tokens (`split_whitespace`, followed by the no-op trim). -/
def parseValidate : Option String → List String
  | none => []
  | some s => splitWhitespace s

/-- `Unpoly::from_request_parts` (src/src/axum.rs): build the model from
the inbound headers, all response fields at their defaults. -/
def fromRequest (h : RequestHeaders) : Unpoly :=
  { Unpoly.init with
    request_version := h.version
    request_context := h.context
    request_fail_context := h.fail_context
    request_mode := parseLayerMode h.mode
    request_fail_mode := parseLayerMode h.fail_mode
    request_target := h.target
    request_fail_target := h.fail_target
    request_validate := parseValidate h.validate }

/-- One call of the public API of `Unpoly`; mutator arguments that undergo
a serde encoding step carry the encoding result (`none` = encoding
fails). -/
inductive Op where
  | opIsUp
  | opSuccess
  | opSetSuccess (b : Bool)
  | opMode
  | opContext
  | opSetContext (enc : Option Json)
  | opTarget
  | opSetTarget (s : String)
  | opValidate
  | opTitle
  | opSetTitle (s : String)
  | opLocation
  | opSetLocation (s : String)
  | opMethod
  | opSetMethod (s : String)
  | opAcceptLayer (enc : Option Json)
  | opAcceptLayerWithoutValue
  | opDismissLayer (enc : Option Json)
  | opDismissLayerWithoutValue
  | opEmitEvent (t : String) (enc : Option Json)
  | opEmitEventLayer (t : String) (enc : Option Json) (ml : MatchingLayer)
  | opSetEvictCache (s : String)
  | opSetExpireCache (s : String)

/-- Effect of one call on the model state. -/
def step (op : Op) (u : Unpoly) : Outcome Unpoly :=
  match op with
  | .opIsUp => .ok u.is_up.2
  | .opSuccess => .ok u.getSuccess.2
  | .opSetSuccess b => .ok (u.set_success b)
  | .opMode => .ok u.mode.2
  | .opContext => .ok u.context.2
  | .opSetContext enc => u.set_context enc
  | .opTarget => .ok u.target.2
  | .opSetTarget s => .ok (u.set_target s)
  | .opValidate => .ok u.validate.2
  | .opTitle => .ok u
  | .opSetTitle s => .ok (u.set_title s)
  | .opLocation => .ok u
  | .opSetLocation s => .ok (u.set_location s)
  | .opMethod => .ok u
  | .opSetMethod s => .ok (u.set_method s)
  | .opAcceptLayer enc => u.accept_layer enc
  | .opAcceptLayerWithoutValue => u.accept_layer_without_value
  | .opDismissLayer enc => u.dismiss_layer enc
  | .opDismissLayerWithoutValue => u.dismiss_layer_without_value
  | .opEmitEvent t enc => u.emit_event t enc
  | .opEmitEventLayer t enc ml => u.emit_event_layer t enc ml
  | .opSetEvictCache s => .ok (u.set_evict_cache s)
  | .opSetExpireCache s => .ok (u.set_expire_cache s)

/-- Run a sequence of calls. A returned `Err` leaves the state unchanged
(every erroring operation fails before mutating) and the caller may keep
going; a panic aborts the run. -/
def exec : List Op → Unpoly → Outcome Unpoly
  | [], u => .ok u
  | op :: ops, u =>
    match step op u with
    | .ok u' => exec ops u'
    | .err _ => exec ops u
    | .panicked => .panicked

theorem lexLe_total : ∀ as bs : List Char, lexLe as bs = true ∨ lexLe bs as = true := by
  intro as
  induction as with
  | nil => intro bs; left; rfl
  | cons a as ih =>
    intro bs
    cases bs with
    | nil => right; rfl
    | cons b bs =>
      by_cases h1 : a < b
      · left; simp [lexLe, h1]
      · by_cases h2 : b < a
        · right; simp [lexLe, h2]
        · rcases ih bs with h | h
          · left; simp [lexLe, h1, h2, h]
          · right; simp [lexLe, h1, h2, h]

theorem lexLe_trans : ∀ as bs cs : List Char,
    lexLe as bs = true → lexLe bs cs = true → lexLe as cs = true := by
  intro as
  induction as with
  | nil => intro bs cs h1 h2; rfl
  | cons a as ih =>
    intro bs cs h1 h2
    cases bs with
    | nil => simp [lexLe] at h1
    | cons b bs =>
      cases cs with
      | nil => simp [lexLe] at h2
      | cons c cs =>
        by_cases hab : a < b
        · by_cases hbc : b < c
          · have hac : a < c := lt_trans hab hbc
            simp [lexLe, hac]
          · by_cases hcb : c < b
            · simp [lexLe, hbc, hcb] at h2
            · have hbc' : b = c := le_antisymm (le_of_not_lt hcb) (le_of_not_lt hbc)
              subst hbc'
              simp [lexLe, hab]
        · by_cases hba : b < a
          · simp [lexLe, hab, hba] at h1
          · have hab' : a = b := le_antisymm (le_of_not_lt hba) (le_of_not_lt hab)
            subst hab'
            simp [lexLe, hab] at h1
            by_cases hac : a < c
            · simp [lexLe, hac]
            · by_cases hca : c < a
              · simp [lexLe, hac, hca] at h2
              · simp [lexLe, hac, hca] at h2 ⊢
                exact ih bs cs h1 h2

theorem lexLe_antisymm : ∀ as bs : List Char,
    lexLe as bs = true → lexLe bs as = true → as = bs := by
  intro as
  induction as with
  | nil =>
    intro bs h1 h2
    cases bs with
    | nil => rfl
    | cons b bs => simp [lexLe] at h2
  | cons a as ih =>
    intro bs h1 h2
    cases bs with
    | nil => simp [lexLe] at h1
    | cons b bs =>
      by_cases hab : a < b
      · have hba : ¬ b < a := lt_asymm hab
        simp [lexLe, hab, hba] at h2
      · by_cases hba : b < a
        · simp [lexLe, hab, hba] at h1
        · have hab' : a = b := le_antisymm (le_of_not_lt hba) (le_of_not_lt hab)
          subst hab'
          simp [lexLe, hab] at h1 h2
          rw [ih bs h1 h2]

instance : IsTotal String (fun s t => strLe s t = true) :=
  ⟨fun a b => lexLe_total a.data b.data⟩

instance : IsTrans String (fun s t => strLe s t = true) :=
  ⟨fun a b c h1 h2 => lexLe_trans a.data b.data c.data h1 h2⟩

instance : IsAntisymm String (fun s t => strLe s t = true) :=
  ⟨fun a b h1 h2 => String.ext (lexLe_antisymm a.data b.data h1 h2)⟩

theorem insertionSort_strLe_eq_of_perm {l₁ l₂ : List String} (h : l₁.Perm l₂) :
    List.insertionSort (fun s t => strLe s t = true) l₁ =
      List.insertionSort (fun s t => strLe s t = true) l₂ :=
  List.eq_of_perm_of_sorted
    ((List.perm_insertionSort _ _).trans (h.trans (List.perm_insertionSort _ _).symm))
    (List.sorted_insertionSort _ _) (List.sorted_insertionSort _ _)

theorem renderVary_perm {l₁ l₂ : List String} (h : l₁.Perm l₂) :
    renderVary l₁ = renderVary l₂ := by
  unfold renderVary
  rw [insertionSort_strLe_eq_of_perm h]

theorem mem_varyInsert_self (l : List String) (s : String) : s ∈ varyInsert l s := by
  unfold varyInsert
  split
  · assumption
  · simp

theorem mem_varyInsert_of_mem {l : List String} {t : String} (s : String) (h : t ∈ l) :
    t ∈ varyInsert l s := by
  unfold varyInsert
  split
  · exact h
  · simp [h]

theorem findHeader_optHeader_ne {name m : String} (h : m ≠ name) (o : Option String)
    (rest : List (String × String)) :
    findHeader name (optHeader m o ++ rest) = findHeader name rest := by
  cases o <;> simp [optHeader, findHeader, h]

theorem findHeader_vary (u : Unpoly) (it : List String) :
    findHeader headers.VARY (u.get_headers_iter it) =
      if it.isEmpty then none else some (renderVary it) := by
  unfold Unpoly.get_headers_iter
  simp only [List.append_assoc]
  rw [findHeader_optHeader_ne (by decide), findHeader_optHeader_ne (by decide),
    findHeader_optHeader_ne (by decide), findHeader_optHeader_ne (by decide),
    findHeader_optHeader_ne (by decide), findHeader_optHeader_ne (by decide),
    findHeader_optHeader_ne (by decide), findHeader_optHeader_ne (by decide),
    findHeader_optHeader_ne (by decide)]
  cases hev : u.response_events.isEmpty <;>
    cases hit : it.isEmpty <;>
      simp [findHeader, headers.EVENTS, headers.VARY]

/-- The mutual-exclusion invariant of the two layer-closing fields. -/
def exclusiveLayers (u : Unpoly) : Prop :=
  ¬(u.response_accept_layer.isSome = true ∧ u.response_dismiss_layer.isSome = true)

theorem step_preserves_exclusive : ∀ (op : Op) (u u' : Unpoly),
    step op u = Outcome.ok u' → exclusiveLayers u → exclusiveLayers u' := by
  intro op u u' h hu
  unfold exclusiveLayers at hu ⊢
  cases op <;>
    simp only [step, Unpoly.is_up, Unpoly.getSuccess, Unpoly.set_success, Unpoly.mode,
      Unpoly.context, Unpoly.set_context, Unpoly.target, Unpoly.set_target, Unpoly.validate,
      Unpoly.set_title, Unpoly.set_location, Unpoly.set_method, Unpoly.accept_layer,
      Unpoly.accept_layer_without_value, Unpoly.dismiss_layer, Unpoly.dismiss_layer_without_value,
      Unpoly.emit_event, Unpoly.emit_event_layer, Unpoly.set_evict_cache,
      Unpoly.set_expire_cache] at h <;>
    (try repeat' split at h) <;>
    first
      | exact Outcome.noConfusion h
      | (injection h with h; subst h; simp_all)

theorem exec_preserves_exclusive : ∀ (ops : List Op) (u u' : Unpoly),
    exec ops u = Outcome.ok u' → exclusiveLayers u → exclusiveLayers u' := by
  intro ops
  induction ops with
  | nil =>
    intro u u' h hu
    simp only [exec, Outcome.ok.injEq] at h
    subst h
    exact hu
  | cons op ops ih =>
    intro u u' h hu
    unfold exec at h
    cases hstep : step op u with
    | ok v =>
      rw [hstep] at h
      exact ih v u' h (step_preserves_exclusive op u v hstep hu)
    | err e =>
      rw [hstep] at h
      exact ih u u' h hu
    | panicked =>
      rw [hstep] at h
      exact Outcome.noConfusion h

theorem step_preserves_request_version : ∀ (op : Op) (u u' : Unpoly),
    step op u = Outcome.ok u' → u'.request_version = u.request_version := by
  intro op u u' h
  cases op <;>
    simp only [step, Unpoly.is_up, Unpoly.getSuccess, Unpoly.set_success, Unpoly.mode,
      Unpoly.context, Unpoly.set_context, Unpoly.target, Unpoly.set_target, Unpoly.validate,
      Unpoly.set_title, Unpoly.set_location, Unpoly.set_method, Unpoly.accept_layer,
      Unpoly.accept_layer_without_value, Unpoly.dismiss_layer, Unpoly.dismiss_layer_without_value,
      Unpoly.emit_event, Unpoly.emit_event_layer, Unpoly.set_evict_cache,
      Unpoly.set_expire_cache] at h <;>
    (try repeat' split at h) <;>
    first
      | exact Outcome.noConfusion h
      | (injection h with h; subst h; rfl)

/-- Calls that never touch the vary set on a version-less request:
everything except `set_success`, `mode` and `target`. -/
def quietOp : Op → Bool
  | .opSetSuccess _ => false
  | .opMode => false
  | .opTarget => false
  | _ => true

theorem quiet_step_preserves_vary : ∀ (op : Op) (u u' : Unpoly),
    quietOp op = true → u.request_version = none →
    step op u = Outcome.ok u' → u'.response_vary = u.response_vary := by
  intro op u u' hq hv h
  cases op <;>
    simp only [quietOp] at hq <;>
    first
      | exact Bool.noConfusion hq
      | (simp only [step, Unpoly.is_up, Unpoly.getSuccess, Unpoly.context, Unpoly.set_context,
          Unpoly.set_target, Unpoly.validate, Unpoly.set_title, Unpoly.set_location,
          Unpoly.set_method, Unpoly.accept_layer, Unpoly.accept_layer_without_value,
          Unpoly.dismiss_layer, Unpoly.dismiss_layer_without_value, Unpoly.emit_event,
          Unpoly.emit_event_layer, Unpoly.set_evict_cache, Unpoly.set_expire_cache] at h <;>
        (try repeat' split at h) <;>
        first
          | exact Outcome.noConfusion h
          | (injection h with h; subst h; simp_all))

theorem exec_quiet_preserves : ∀ (ops : List Op) (u u' : Unpoly),
    (∀ op ∈ ops, quietOp op = true) → u.request_version = none →
    exec ops u = Outcome.ok u' →
    u'.request_version = none ∧ u'.response_vary = u.response_vary := by
  intro ops
  induction ops with
  | nil =>
    intro u u' _ hv h
    simp only [exec, Outcome.ok.injEq] at h
    subst h
    exact ⟨hv, rfl⟩
  | cons op ops ih =>
    intro u u' hq hv h
    unfold exec at h
    cases hstep : step op u with
    | ok v =>
      rw [hstep] at h
      have hvv : v.request_version = none :=
        (step_preserves_request_version op u v hstep).trans hv
      have hvary : v.response_vary = u.response_vary :=
        quiet_step_preserves_vary op u v (hq op (by simp)) hv hstep
      have := ih v u' (fun o ho => hq o (by simp [ho])) hvv h
      exact ⟨this.1, this.2.trans hvary⟩
    | err e =>
      rw [hstep] at h
      exact ih u u' (fun o ho => hq o (by simp [ho])) hv h
    | panicked =>
      rw [hstep] at h
      exact Outcome.noConfusion h

/-- The end-to-end request header set of the spec's example: version
1.0.0, context and fail-context objects, target main, fail-target root,
mode root, fail-mode cover, validate name. -/
def req4 : RequestHeaders :=
  { version := some "1.0.0"
    context := some (Json.obj [("lives", Json.num 42)])
    fail_context := some (Json.obj [("lives", Json.num 2)])
    mode := some "root"
    fail_mode := some "cover"
    target := some "main"
    fail_target := some "root"
    validate := some "name" }

/-- A request with no protocol headers at all. -/
def reqEmpty : RequestHeaders :=
  { version := none
    context := none
    fail_context := none
    mode := none
    fail_mode := none
    target := none
    fail_target := none
    validate := none }

/-- Number of keys of a JSON object value. -/
def objKeyCount : Json → Nat
  | .obj fields => fields.length
  | _ => 0

/-- C1: on a value whose JSON encoding fails, `dismiss_layer` and
`set_context` do not surface the encoding error to the caller: both call
`unwrap()` on the failed encoding and panic, aborting the program, unlike
`accept_layer`, which returns the error. -/
theorem dismiss_layer_set_context_panic_on_encoding_failure :
    ∀ u : Unpoly,
      u.dismiss_layer none = Outcome.panicked ∧
      u.set_context none = Outcome.panicked ∧
      u.accept_layer none = Outcome.err Error.invalidJson := by
  intro u
  exact ⟨rfl, rfl, rfl⟩

/-- C2 counterexample: `accept_layer_without_value()` stores the JSON
string value str null — not the JSON null value — so the rendered
accept-layer header is the quoted encoding of that string, which differs
from the JSON encoding of null. -/
theorem accept_layer_without_value_not_json_null :
    Unpoly.init.accept_layer_without_value =
      Outcome.ok { Unpoly.init with response_accept_layer := some (Json.str "null") } ∧
    (some (Json.str "null") ≠ some Json.null) ∧
    findHeader headers.ACCEPT_LAYER
        (Unpoly.get_headers { Unpoly.init with response_accept_layer := some (Json.str "null") }) =
      some "\"null\"" ∧
    ("\"null\"" : String) ≠ Json.encode Json.null := by
  refine ⟨rfl, fun h => Json.noConfusion (Option.some.inj h), ?_, ?_⟩
  · simp [Unpoly.get_headers, Unpoly.get_headers_iter, optHeader, findHeader, Unpoly.init,
      Json.encode]
    decide
  · simp [Json.encode]

/-- C2 (amended): the without-value convenience forms store the JSON
string value str null (the serde encoding of the Rust string literal
passed by the code), clearing the opposite field; the rendered header
value is therefore the six-character quoted string, not the encoding of
JSON null. -/
theorem without_value_forms_store_null_string :
    ∀ u : Unpoly,
      u.accept_layer_without_value =
        Outcome.ok
          { u with response_accept_layer := some (Json.str "null"), response_dismiss_layer := none } ∧
      u.dismiss_layer_without_value =
        Outcome.ok
          { u with response_dismiss_layer := some (Json.str "null"), response_accept_layer := none } ∧
      Json.encode (Json.str "null") = "\"null\"" := by
  intro u
  refine ⟨rfl, rfl, ?_⟩
  simp [Json.encode]
  decide

/-- C5: along every successful run from the initial model,
`response_accept_layer` and `response_dismiss_layer` are never both
present; a successful `accept_layer` leaves exactly the accept value set
and clears the dismiss value, and symmetrically for `dismiss_layer`. -/
theorem accept_dismiss_mutually_exclusive :
    (∀ (ops : List Op) (u' : Unpoly),
      exec ops Unpoly.init = Outcome.ok u' →
      ¬(u'.response_accept_layer.isSome = true ∧ u'.response_dismiss_layer.isSome = true)) ∧
    (∀ (u : Unpoly) (v : Json),
      u.accept_layer (some v) =
        Outcome.ok { u with response_accept_layer := some v, response_dismiss_layer := none }) ∧
    (∀ (u : Unpoly) (v : Json),
      u.dismiss_layer (some v) =
        Outcome.ok { u with response_dismiss_layer := some v, response_accept_layer := none }) := by
  refine ⟨?_, fun u v => rfl, fun u v => rfl⟩
  intro ops u' h
  exact exec_preserves_exclusive ops Unpoly.init u' h (by simp [exclusiveLayers, Unpoly.init])

theorem accept_dismiss_mutually_exclusive_witness :
    ¬(({ Unpoly.init with response_accept_layer := some (Json.num 2) } : Unpoly).response_accept_layer.isSome =
          true ∧
      ({ Unpoly.init with response_accept_layer := some (Json.num 2) } : Unpoly).response_dismiss_layer.isSome =
          true) :=
  accept_dismiss_mutually_exclusive.1
    [Op.opDismissLayer (some (Json.num 1)), Op.opAcceptLayer (some (Json.num 2))]
    { Unpoly.init with response_accept_layer := some (Json.num 2) } rfl

/-- C6 counterexample: when the payload already contains a type key,
`emit_event` overwrites it in place, so the appended entry has the same
number of keys as the payload, not one more — the entry is not the
payload's object with one added type key. -/
theorem emit_event_existing_type_key_counterexample :
    Unpoly.init.emit_event "t" (some (Json.obj [("type", Json.str "x")])) =
      Outcome.ok { Unpoly.init with response_events := [Json.obj [("type", Json.str "t")]] } ∧
    objKeyCount (Json.obj [("type", Json.str "t")]) ≠
      objKeyCount (Json.obj [("type", Json.str "x")]) + 1 := by
  exact ⟨rfl, by decide⟩

/-- C6 (amended): a payload encoding to a non-object JSON value makes
`emit_event` fail with the non-object-payload error; an object payload
appends exactly one entry, the payload with its type key set to the given
type string — added as a new final key when absent, overwritten in place
when already present — preserving the insertion order of the events
list. -/
theorem emit_event_appends_type_keyed_entry :
    ∀ (t : String) (u : Unpoly),
      (∀ v : Json, v.isObject = false →
        u.emit_event t (some v) = Outcome.err Error.eventIsNotSerializableAsObject) ∧
      (u.emit_event t none = Outcome.err Error.invalidJson) ∧
      (∀ v : Json, v.isObject = true →
        u.emit_event t (some v) =
          Outcome.ok
            { u with response_events := u.response_events ++ [v.objInsert "type" (Json.str t)] }) ∧
      (u.emit_event "t" (some (Json.num 5)) = Outcome.err Error.eventIsNotSerializableAsObject) ∧
      (u.emit_event "t" (some (Json.obj [("a", Json.num 1)])) =
        Outcome.ok
          { u with
            response_events :=
              u.response_events ++ [Json.obj [("a", Json.num 1), ("type", Json.str "t")]] }) := by
  intro t u
  refine ⟨?_, rfl, ?_, rfl, rfl⟩
  · intro v hv
    simp [Unpoly.emit_event, hv]
  · intro v hv
    simp [Unpoly.emit_event, hv]

theorem emit_event_appends_type_keyed_entry_witness :
    Unpoly.init.emit_event "t" (some (Json.num 5)) =
      Outcome.err Error.eventIsNotSerializableAsObject ∧
    Unpoly.init.emit_event "t" (some (Json.obj [("a", Json.num 1)])) =
      Outcome.ok
        { Unpoly.init with response_events := [Json.obj [("a", Json.num 1), ("type", Json.str "t")]] } :=
  ⟨(emit_event_appends_type_keyed_entry "t" Unpoly.init).1 (Json.num 5) rfl,
   (emit_event_appends_type_keyed_entry "t" Unpoly.init).2.2.2.2⟩

/-- C7: `set_success` stores the request target on the success branch and
the request fail-target on the failure branch as the response target, so
with target main and fail-target root, `set_success true` then `target`
yields main and `set_success false` then `target` yields root. -/
theorem set_success_sets_response_target :
    ∀ (u : Unpoly) (b : Bool),
      ((u.set_success b).response_target = if b then u.request_target else u.request_fail_target) ∧
      (u.request_target = some "main" → ((u.set_success true).target).1 = some "main") ∧
      (u.request_fail_target = some "root" → ((u.set_success false).target).1 = some "root") := by
  intro u b
  refine ⟨?_, ?_, ?_⟩
  · cases b <;> simp [Unpoly.set_success]
  · intro h
    simp [Unpoly.set_success, Unpoly.target, h]
  · intro h
    simp [Unpoly.set_success, Unpoly.target, h]

theorem set_success_sets_response_target_witness :
    ((fromRequest req4).set_success true).response_target = some "main" ∧
    (((fromRequest req4).set_success true).target).1 = some "main" ∧
    (((fromRequest req4).set_success false).target).1 = some "root" :=
  ⟨(set_success_sets_response_target (fromRequest req4) true).1.trans (by rfl),
   (set_success_sets_response_target (fromRequest req4) true).2.1 rfl,
   (set_success_sets_response_target (fromRequest req4) false).2.2 rfl⟩

/-- C3 counterexample: on a model built from a header set lacking the
version header, a single `mode()` call already records a vary name, so the
rendered map does contain a Vary header. -/
theorem no_version_mode_still_varies_counterexample :
    (fromRequest reqEmpty).request_version = none ∧
    exec [Op.opMode] (fromRequest reqEmpty) = Outcome.ok ((fromRequest reqEmpty).mode).2 ∧
    findHeader headers.VARY (Unpoly.get_headers ((fromRequest reqEmpty).mode).2) =
      some "X-Up-Mode" := by
  refine ⟨rfl, rfl, ?_⟩
  decide

/-- C3 (amended): on a model built from a header set lacking the version
header, `is_up()` returns false, and any successful sequence of calls that
avoids `set_success`, `mode` and `target` renders no Vary header at all;
those three calls record vary names even without the version header. -/
theorem no_version_no_vary_for_quiet_calls :
    ∀ (h : RequestHeaders) (ops : List Op) (u' : Unpoly),
      h.version = none →
      ((fromRequest h).is_up).1 = false ∧
      ((∀ op ∈ ops, quietOp op = true) → exec ops (fromRequest h) = Outcome.ok u' →
        findHeader headers.VARY (Unpoly.get_headers u') = none) := by
  intro h ops u' hv
  constructor
  · simp [fromRequest, Unpoly.init, Unpoly.is_up, hv]
  · intro hq hexec
    have hpres :=
      exec_quiet_preserves ops (fromRequest h) u' hq (by simp [fromRequest, Unpoly.init, hv]) hexec
    have hvary : u'.response_vary = [] := by
      rw [hpres.2]
      rfl
    unfold Unpoly.get_headers
    rw [findHeader_vary, hvary]
    rfl

theorem no_version_no_vary_for_quiet_calls_witness :
    ((fromRequest reqEmpty).is_up).1 = false ∧
    findHeader headers.VARY (Unpoly.get_headers ((fromRequest reqEmpty).context).2) = none := by
  have h :=
    no_version_no_vary_for_quiet_calls reqEmpty [Op.opContext] ((fromRequest reqEmpty).context).2 rfl
  exact ⟨h.1, h.2 (by decide) rfl⟩

/-- C4: on the model built from the spec's end-to-end header set, after
`set_success true` then `context`, `target`, `mode`, the rendered Vary
header is exactly the sorted success-branch name list; with
`set_success false` it is exactly the sorted failure-branch name list. -/
theorem end_to_end_vary_header :
    (match exec [Op.opSetSuccess true, Op.opContext, Op.opTarget, Op.opMode] (fromRequest req4) with
      | Outcome.ok u => findHeader headers.VARY (Unpoly.get_headers u)
      | _ => none) = some "X-Up-Context,X-Up-Mode,X-Up-Target,X-Up-Version" ∧
    (match exec [Op.opSetSuccess false, Op.opContext, Op.opTarget, Op.opMode] (fromRequest req4) with
      | Outcome.ok u => findHeader headers.VARY (Unpoly.get_headers u)
      | _ => none) = some "X-Up-Fail-Context,X-Up-Fail-Mode,X-Up-Fail-Target,X-Up-Version" := by
  constructor <;> decide

/-- C8: the rendered map has a Vary entry exactly when the vary set is
non-empty, in which case its value is the sorted comma-join of the
recorded names; and that value depends only on which names were recorded,
not on any order. -/
theorem vary_header_canonical :
    ∀ u : Unpoly,
      ((findHeader headers.VARY (Unpoly.get_headers u) = none) ↔ u.response_vary = []) ∧
      (u.response_vary ≠ [] →
        findHeader headers.VARY (Unpoly.get_headers u) = some (renderVary u.response_vary)) ∧
      (∀ l₁ l₂ : List String, l₁.Nodup → l₂.Nodup → (∀ s, s ∈ l₁ ↔ s ∈ l₂) →
        renderVary l₁ = renderVary l₂) := by
  intro u
  refine ⟨?_, ?_, ?_⟩
  · unfold Unpoly.get_headers
    rw [findHeader_vary]
    constructor
    · intro h
      cases hl : u.response_vary with
      | nil => rfl
      | cons a l =>
        rw [hl] at h
        simp at h
    · intro h
      simp [h]
  · intro h
    unfold Unpoly.get_headers
    rw [findHeader_vary]
    have he : u.response_vary.isEmpty = false := by
      cases hl : u.response_vary with
      | nil => exact absurd hl h
      | cons a l => rfl
    simp [he]
  · intro l₁ l₂ h₁ h₂ hmem
    exact renderVary_perm ((List.perm_ext_iff_of_nodup h₁ h₂).mpr hmem)

theorem vary_header_canonical_witness :
    findHeader headers.VARY
        (Unpoly.get_headers { Unpoly.init with response_vary := ["X-Up-Version", "X-Up-Mode"] }) =
      some (renderVary ["X-Up-Version", "X-Up-Mode"]) ∧
    renderVary ["X-Up-Mode", "X-Up-Version"] = renderVary ["X-Up-Version", "X-Up-Mode"] :=
  ⟨(vary_header_canonical { Unpoly.init with response_vary := ["X-Up-Version", "X-Up-Mode"] }).2.1
      (by decide),
   (vary_header_canonical Unpoly.init).2.2 ["X-Up-Mode", "X-Up-Version"]
     ["X-Up-Version", "X-Up-Mode"] (by decide) (by decide)
     (fun s => by simp [List.mem_cons]; tauto)⟩

/-- C9: with the version header present, a `context()` call that resolves
to a present request-derived context value (no response override) records
both the corresponding context header name and the version header name in
vary, and a `validate()` call with a non-empty validate list records both
the validate header name and the version header name — the version name
coming from the internal `is_up()` check. -/
theorem context_validate_record_version :
    ∀ u : Unpoly, u.request_version.isSome = true →
      (u.response_context = none → u.success ≠ some false → u.request_context.isSome = true →
        "X-Up-Context" ∈ ((u.context).2).response_vary ∧
        "X-Up-Version" ∈ ((u.context).2).response_vary) ∧
      (u.response_context = none → u.success = some false → u.request_fail_context.isSome = true →
        "X-Up-Fail-Context" ∈ ((u.context).2).response_vary ∧
        "X-Up-Version" ∈ ((u.context).2).response_vary) ∧
      (u.request_validate ≠ [] →
        "X-Up-Validate" ∈ ((u.validate).2).response_vary ∧
        "X-Up-Version" ∈ ((u.validate).2).response_vary) := by
  intro u hv
  refine ⟨?_, ?_, ?_⟩
  · intro hrc hs hctx
    simp only [Unpoly.context, Unpoly.is_up, hrc, hv, hctx, hs, Option.isSome_none,
      Bool.false_eq_true, if_false, if_true]
    exact ⟨mem_varyInsert_self _ _, mem_varyInsert_of_mem _ (mem_varyInsert_self _ _)⟩
  · intro hrc hs hctx
    simp only [Unpoly.context, Unpoly.is_up, hrc, hv, hctx, hs, Option.isSome_none,
      Bool.false_eq_true, if_false, if_true]
    exact ⟨mem_varyInsert_self _ _, mem_varyInsert_of_mem _ (mem_varyInsert_self _ _)⟩
  · intro hval
    have he : u.request_validate.isEmpty = false := by
      cases hl : u.request_validate with
      | nil => exact absurd hl hval
      | cons a l => rfl
    simp only [Unpoly.validate, Unpoly.is_up, hv, he, Bool.false_eq_true, if_false, if_true]
    exact ⟨mem_varyInsert_self _ _, mem_varyInsert_of_mem _ (mem_varyInsert_self _ _)⟩

theorem context_validate_record_version_witness :
    ("X-Up-Context" ∈ (((fromRequest req4).context).2).response_vary ∧
      "X-Up-Version" ∈ (((fromRequest req4).context).2).response_vary) ∧
    ("X-Up-Validate" ∈ (((fromRequest req4).validate).2).response_vary ∧
      "X-Up-Version" ∈ (((fromRequest req4).validate).2).response_vary) :=
  ⟨(context_validate_record_version (fromRequest req4) rfl).1 rfl (by decide) rfl,
   (context_validate_record_version (fromRequest req4) rfl).2.2 (by decide)⟩

theorem get_headers_iter_perm (u : Unpoly) :
    ∀ l₁ l₂ : List String, l₁.Perm l₂ → u.get_headers_iter l₁ = u.get_headers_iter l₂ := by
  intro l₁ l₂ hp
  unfold Unpoly.get_headers_iter
  congr 1
  by_cases h0 : l₁ = []
  · subst h0
    have h0' : l₂ = [] := List.Perm.eq_nil hp.symm
    subst h0'
    rfl
  · have h0' : l₂ ≠ [] := by
      intro hc
      subst hc
      exact h0 (List.Perm.eq_nil hp)
    have e1 : l₁.isEmpty = false := by
      cases l₁ with
      | nil => exact absurd rfl h0
      | cons a l => rfl
    have e2 : l₂.isEmpty = false := by
      cases l₂ with
      | nil => exact absurd rfl h0'
      | cons a l => rfl
    simp only [e1, e2, Bool.false_eq_true, if_false]
    rw [renderVary_perm hp]

/-- C10 counterexample: `get_headers` does not return a header map on
every model state — on the state reached by `set_title` with a value
containing a newline, the `HeaderValue` parse of the title panics, so no
map is returned at all. -/
theorem get_headers_panics_counterexample :
    exec [Op.opSetTitle "a\nb"] Unpoly.init =
      Outcome.ok { Unpoly.init with response_title := some "a\nb" } ∧
    validHeaderValue "a\nb" = false ∧
    ({ Unpoly.init with response_title := some "a\nb" } : Unpoly).get_headers_outcome
        ({ Unpoly.init with response_title := some "a\nb" } : Unpoly).response_vary =
      Outcome.panicked := by
  exact ⟨rfl, rfl, rfl⟩

/-- C10 (amended): the outcome of `get_headers` — the rendered header map,
or the panic raised by a `HeaderValue` conversion on a value with a
character rejected by `HeaderValue::from_str` — is a deterministic,
read-only function of the model state: it does not depend on the
iteration order of the vary hash set, and whenever two calls (any two
enumerations of the stored names) return maps, the maps are equal; the
model itself is read by value, never modified. -/
theorem get_headers_outcome_order_independent :
    ∀ (u : Unpoly) (it₁ it₂ : List String),
      it₁.Perm u.response_vary → it₂.Perm u.response_vary →
      u.get_headers_outcome it₁ = u.get_headers_outcome it₂ ∧
      u.get_headers_outcome u.response_vary = u.get_headers_outcome it₁ ∧
      (∀ m₁ m₂ : List (String × String),
        u.get_headers_outcome it₁ = Outcome.ok m₁ →
        u.get_headers_outcome it₂ = Outcome.ok m₂ → m₁ = m₂) := by
  intro u it₁ it₂ h₁ h₂
  have e12 : u.get_headers_iter it₁ = u.get_headers_iter it₂ :=
    get_headers_iter_perm u it₁ it₂ (h₁.trans h₂.symm)
  have e01 : u.get_headers_iter u.response_vary = u.get_headers_iter it₁ :=
    get_headers_iter_perm u u.response_vary it₁ h₁.symm
  have heq : u.get_headers_outcome it₁ = u.get_headers_outcome it₂ := by
    unfold Unpoly.get_headers_outcome
    rw [e12]
  refine ⟨heq, ?_, ?_⟩
  · unfold Unpoly.get_headers_outcome
    rw [e01]
  · intro m₁ m₂ hm₁ hm₂
    rw [heq, hm₂] at hm₁
    injection hm₁ with h
    exact h.symm

theorem get_headers_outcome_order_independent_witness :
    ({ Unpoly.init with response_vary := ["X-Up-Mode", "X-Up-Version"] } : Unpoly).get_headers_outcome
        ["X-Up-Version", "X-Up-Mode"] =
      ({ Unpoly.init with response_vary := ["X-Up-Mode", "X-Up-Version"] } : Unpoly).get_headers_outcome
        ["X-Up-Mode", "X-Up-Version"] :=
  (get_headers_outcome_order_independent
    { Unpoly.init with response_vary := ["X-Up-Mode", "X-Up-Version"] }
    ["X-Up-Version", "X-Up-Mode"] ["X-Up-Mode", "X-Up-Version"] (by decide) (by decide)).1
